import Mathlib

/-!
Shallow embedding of `src/demo/examples/python/data_processor.py`
(the `DataProcessor` class: the dispatcher `process_data`, the three
shape transforms, `_flatten_dict`, and the history/statistics methods),
together with theorems settling the specification claims.

Python values that can flow through the processor are modelled by the
inductive type `Value` (strings, ints, bools, `None`, lists, dicts with
string keys).  Machine floats used for timing are modelled by `ℚ`;
timing values are supplied by the caller as parameters since they come
from the wall clock.  The external JSON decoder (`json.loads`) is an
external collaborator and is passed in as a parameter
`jl : String → Option Value` (`none` models `json.JSONDecodeError`).
-/

/-- A Python value of the shapes the processor manipulates. -/
inductive Value where
  | vstr (s : String)
  | vint (n : Int)
  | vbool (b : Bool)
  | vnone
  | vlist (xs : List Value)
  | vdict (kvs : List (String × Value))
deriving Repr

/-- `type(v).__name__` for the modelled values. -/
def pyTypeName : Value → String
  | .vstr _ => "str"
  | .vint _ => "int"
  | .vbool _ => "bool"
  | .vnone => "NoneType"
  | .vlist _ => "list"
  | .vdict _ => "dict"

/-- Python numeric view: `bool` is a subtype of `int`, so `True` counts as 1
and `False` as 0 in comparisons and equality. -/
def toNum : Value → Option Int
  | .vint n => some n
  | .vbool b => some (if b then 1 else 0)
  | _ => none

mutual
/-- Python `==` on the modelled values: numeric equality unifies `int` and
`bool`, strings compare by code points, lists elementwise, dicts by key
lookup in both directions.  `==` never raises in Python, so this is total. -/
def pyEq : Value → Value → Bool
  | .vint a, .vint b => a == b
  | .vint a, .vbool b => a == (if b then 1 else 0)
  | .vbool a, .vint b => (if a then (1 : Int) else 0) == b
  | .vbool a, .vbool b => a == b
  | .vnone, .vnone => true
  | .vstr a, .vstr b => a == b
  | .vlist a, .vlist b => pyEqList a b
  | .vdict a, .vdict b => a.length == b.length && pyEqDictSub a b
  | _, _ => false

/-- Elementwise list equality. -/
def pyEqList : List Value → List Value → Bool
  | [], [] => true
  | a :: as_, b :: bs => pyEq a b && pyEqList as_ bs
  | _, _ => false

/-- Every entry of the first dict has an equal entry in the second. -/
def pyEqDictSub : List (String × Value) → List (String × Value) → Bool
  | [], _ => true
  | (k, v) :: rest, b => pyLookupEq k v b && pyEqDictSub rest b

/-- Does `b` map key `k` to a value `pyEq` to `v`? -/
def pyLookupEq (k : String) (v : Value) : List (String × Value) → Bool
  | [] => false
  | (k2, w) :: b2 => if k2 == k then pyEq v w else pyLookupEq k v b2
end

mutual
/-- Python rich comparison (`<`, as used by `sorted`): `some o` when the two
values are comparable with ordering `o`, `none` when Python would raise
`TypeError`.  Numbers (`int`/`bool`) compare numerically, strings by code
points, lists lexicographically (equal prefixes skipped with `==`, Python
list comparison semantics); everything else, `None` and dicts included,
is unorderable. -/
def pyCompare : Value → Value → Option Ordering
  | .vint a, .vint b => some (compare a b)
  | .vint a, .vbool b => some (compare a (if b then 1 else 0))
  | .vbool a, .vint b => some (compare (if a then (1 : Int) else 0) b)
  | .vbool a, .vbool b => some (compare (if a then (1 : Int) else 0) (if b then 1 else 0))
  | .vstr a, .vstr b => some (compare a b)
  | .vlist a, .vlist b => pyCompareList a b
  | _, _ => none

/-- Python list comparison: skip the longest common prefix under `==`, then
compare the first mismatching elements; if one list is a prefix of the
other, the shorter is smaller. -/
def pyCompareList : List Value → List Value → Option Ordering
  | [], [] => some .eq
  | [], _ :: _ => some .lt
  | _ :: _, [] => some .gt
  | a :: as_, b :: bs => if pyEq a b then pyCompareList as_ bs else pyCompare a b
end

/-- Python `dict(items)` / dict-comprehension semantics on a pair list:
a repeated key keeps its first position but takes the last value written. -/
def pyDictInsert (acc : List (String × Value)) (kv : String × Value) :
    List (String × Value) :=
  if acc.any (fun p => p.1 == kv.1) then
    acc.map (fun p => if p.1 == kv.1 then (p.1, kv.2) else p)
  else acc ++ [kv]

/-- Build a Python dict from a list of key-value pairs. -/
def pyDict (items : List (String × Value)) : List (String × Value) :=
  items.foldl pyDictInsert []

/-- The pair list accumulated by `DataProcessor._flatten_dict` (the `items`
variable): for each entry, `new_key = f"{parent_key}{sep}{k}" if parent_key
else k`; a dict value is recursed into with `parent_key = new_key` and its
pairs spliced in, any other value contributes the single pair
`(new_key, v)`. -/
def flattenItems : List (String × Value) → String → String → List (String × Value)
  | [], _, _ => []
  | (k, v) :: rest, parent_key, sep =>
    (match v with
     | .vdict inner =>
       flattenItems inner (if parent_key = "" then k else parent_key ++ sep ++ k) sep
     | w => [((if parent_key = "" then k else parent_key ++ sep ++ k), w)]) ++
    flattenItems rest parent_key sep

/-- `DataProcessor._flatten_dict(data, parent_key, sep)`: accumulate the
pair list and build a dict from it (`return dict(items)`). -/
def flatten_dict (data : List (String × Value)) (parent_key : String)
    (sep : String) : List (String × Value) :=
  pyDict (flattenItems data parent_key sep)

/-- Error message of Python's `TypeError` raised when `<` is applied to an
unorderable pair (as `sorted` does). -/
def cmpErrMsg (x y : Value) : String :=
  "'<' not supported between instances of '" ++ pyTypeName x ++ "' and '" ++
    pyTypeName y ++ "'"

/-- Insert one element into an already sorted list, comparing with Python
`<`; an unorderable comparison surfaces as the `TypeError` message. -/
def insertSorted (x : Value) : List Value → Except String (List Value)
  | [] => .ok [x]
  | y :: ys =>
    match pyCompare x y with
    | none => .error (cmpErrMsg x y)
    | some .lt => .ok (x :: y :: ys)
    | some _ => (insertSorted x ys).map (y :: ·)

/-- `sorted(data)`: a stable comparison sort over Python `<`, modelled as
insertion sort; raises (returns `.error`) exactly when it hits an
unorderable pair, as CPython's sort does. -/
def pySorted : List Value → Except String (List Value)
  | [] => .ok []
  | x :: xs =>
    match pySorted xs with
    | .ok ys => insertSorted x ys
    | .error e => .error e

/-- Python's hashability check: lists and dicts are unhashable, so `set()`
rejects them. -/
def isUnhashable : Value → Bool
  | .vlist _ => true
  | .vdict _ => true
  | _ => false

/-- `list(set(data))`: fails with `TypeError` on the first unhashable
element, otherwise deduplicates under Python `==` (set membership), first
occurrence kept.  CPython's set iteration order is a hash-table artifact
and is not guaranteed; this model fixes first-occurrence order. -/
def pyUnique (xs : List Value) : Except String (List Value) :=
  match xs.find? isUnhashable with
  | some v => .error ("unhashable type: '" ++ pyTypeName v ++ "'")
  | none => .ok (xs.foldl (fun acc v => if acc.any (pyEq v) then acc else acc ++ [v]) [])

/-- Python `str.upper()`: uppercase every character (ASCII-faithful;
stated over the character list so that it evaluates structurally). -/
def pyUpper (s : String) : String := ⟨s.data.map Char.toUpper⟩

/-- `DataProcessor._process_string_data(data, operation)`.  `jl` is the
external `json.loads` collaborator (`none` = `json.JSONDecodeError`, which
the code turns into the fallback record). -/
def process_string_data (jl : String → Option Value) (data : String)
    (operation : String) : Value :=
  if operation = "transform" then .vstr (pyUpper data)
  else if operation = "parse" then
    match jl data with
    | some v => v
    | none => .vdict [("raw", .vstr data), ("parsed", .vbool false)]
  else if operation = "clean" then
    .vstr (((data.trim).replace "\n" " ").replace "\r" " ")
  else .vstr data

/-- `DataProcessor._process_list_data(data, operation)`.  `sort` and
`unique` can raise a `TypeError`, modelled as `.error`. -/
def process_list_data (data : List Value) (operation : String) :
    Except String Value :=
  if operation = "transform" then
    .ok (.vlist (data.map fun item =>
      match item with
      | .vstr s => .vstr (pyUpper s)
      | other => other))
  else if operation = "filter" then
    .ok (.vlist (data.filter fun item => !pyEq item .vnone))
  else if operation = "sort" then (pySorted data).map .vlist
  else if operation = "unique" then (pyUnique data).map .vlist
  else .ok (.vlist data)

/-- `DataProcessor._process_dict_data(data, operation)`. -/
def process_dict_data (data : List (String × Value)) (operation : String) :
    Value :=
  if operation = "transform" then
    .vdict (pyDict (data.map fun kv => (pyUpper kv.1, kv.2)))
  else if operation = "filter" then
    .vdict (data.filter fun kv => !pyEq kv.2 .vnone)
  else if operation = "flatten" then .vdict (flatten_dict data "" "_")
  else .vdict data

/-- Metadata values: the code stores strings (operation name, type tags,
error text) and a float (the duration, modelled by `ℚ`). -/
inductive MetaV where
  | s (v : String)
  | q (v : ℚ)
deriving Repr, DecidableEq

/-- The `ProcessingResult` dataclass.  `data` is `Value.vnone` exactly when
the Python field holds `None` (which is also a legitimate decoded JSON
value, so no separate absent marker exists, as in Python). -/
structure ProcessingResult where
  success : Bool
  data : Value
  metadata : List (String × MetaV)
  timestamp : ℚ
  processing_time : ℚ

/-- The mutable state of a `DataProcessor` instance: its (unused)
configuration and `processing_history`. -/
structure DPState where
  config : List (String × Value)
  processing_history : List ProcessingResult

/-- `DataProcessor.__init__(config)` with `config=None`: empty config,
empty history. -/
def DataProcessor_init : DPState :=
  { config := [], processing_history := [] }

/-- The dispatch in `process_data`'s `try` block: route by runtime shape,
`str`/`list`/`dict` to the matching transform, anything else raises
`ValueError(f"Unsupported data type: {type(data)}")`. -/
def dispatchTransform (jl : String → Option Value) (data : Value)
    (operation : String) : Except String Value :=
  match data with
  | .vstr s => .ok (process_string_data jl s operation)
  | .vlist xs => process_list_data xs operation
  | .vdict kvs => .ok (process_dict_data kvs operation)
  | other => .error ("Unsupported data type: <class '" ++ pyTypeName other ++ "'>")

/-- `DataProcessor.process_data(data, operation)`.  `start` is the
`datetime.now()` capture at entry and `elapsed` the measured duration of
this call (wall-clock inputs).  On success the result is appended to
`processing_history`; the `except` branch returns its failed result
without appending. -/
def process_data (jl : String → Option Value) (st : DPState) (data : Value)
    (operation : String) (start elapsed : ℚ) : ProcessingResult × DPState :=
  match dispatchTransform jl data operation with
  | .ok result_data =>
    let result : ProcessingResult :=
      { success := true
        data := result_data
        metadata := [("operation", .s operation),
                     ("input_type", .s (pyTypeName data)),
                     ("output_type", .s (pyTypeName result_data)),
                     ("processing_time", .q elapsed)]
        timestamp := start
        processing_time := elapsed }
    (result, { st with processing_history := st.processing_history ++ [result] })
  | .error e =>
    ({ success := false
       data := .vnone
       metadata := [("error", .s e)]
       timestamp := start
       processing_time := elapsed }, st)

/-- `DataProcessor.clear_history()`. -/
def clear_history (st : DPState) : DPState :=
  { st with processing_history := [] }

/-- `DataProcessor.get_statistics()`: two-key record on an empty history,
otherwise the five aggregate metrics (floats modelled by `ℚ`). -/
def get_statistics (hist : List ProcessingResult) : List (String × ℚ) :=
  match hist with
  | [] => [("total_operations", 0), ("success_rate", 0)]
  | _ :: _ =>
    let total_operations : ℚ := hist.length
    let successful_operations : ℚ :=
      hist.foldl (fun acc r => if r.success then acc + 1 else acc) 0
    let success_rate : ℚ := successful_operations / total_operations
    let total_processing_time : ℚ :=
      hist.foldl (fun acc r => acc + r.processing_time) 0
    let average_processing_time : ℚ := total_processing_time / total_operations
    [("total_operations", total_operations),
     ("successful_operations", successful_operations),
     ("success_rate", success_rate),
     ("total_processing_time", total_processing_time),
     ("average_processing_time", average_processing_time)]

/-!
A minimal heap of Python list objects, used to state the defensive-copy
property of `get_processing_history`: the history list is a mutable heap
cell named by a reference, `list.copy()` allocates a fresh cell with the
same contents, and a caller mutation writes through the reference it was
handed.
-/

/-- Heap of Python list objects holding `ProcessingResult`s; a reference is
an index into `cells`. -/
structure ListHeap where
  cells : List (List ProcessingResult)

/-- Dereference a list object. -/
def heapRead (h : ListHeap) (r : ℕ) : List ProcessingResult :=
  (h.cells.get? r).getD []

/-- Mutate the list object behind `r` in place. -/
def heapWrite (h : ListHeap) (r : ℕ) (v : List ProcessingResult) : ListHeap :=
  ⟨h.cells.set r v⟩

/-- Allocate a fresh list object. -/
def heapAlloc (h : ListHeap) (v : List ProcessingResult) : ℕ × ListHeap :=
  (h.cells.length, ⟨h.cells ++ [v]⟩)

/-- `DataProcessor.get_processing_history()`:
`return self.processing_history.copy()` — allocate a fresh list object
holding the same elements as the history cell and hand its reference to
the caller. -/
def get_processing_history (h : ListHeap) (histRef : ℕ) : ℕ × ListHeap :=
  heapAlloc h (heapRead h histRef)

/-!
Second, spec-side definition for the refinement claim about the
flattener, following the wording of spec §4.1 rather than the source.
-/

/-- Spec §4.1, stated in its own words: for each key `k`, value `v` of the
input, `newKey = parentKey.isEmpty ? k : parentKey + separator + k`; if
`v` is itself a mapping, recurse with `parentKey = newKey` and splice the
resulting pairs into the output, otherwise insert `(newKey, v)`; key
collisions are resolved last-write-wins.  (The final last-write-wins
mapping build is `pyDict`, shared with the source model.) -/
def specFlattenPairs : List (String × Value) → String → String → List (String × Value)
  | [], _, _ => []
  | (k, v) :: rest, parentKey, separator =>
    let newKey := if parentKey.isEmpty then k else parentKey ++ separator ++ k
    (match v with
     | .vdict inner => specFlattenPairs inner newKey separator
     | w => [(newKey, w)]) ++ specFlattenPairs rest parentKey separator

/-- Spec §4.1 flatten: the path pairs, with collisions resolved
last-write-wins. -/
def specFlatten (data : List (String × Value)) (parentKey separator : String) :
    List (String × Value) :=
  pyDict (specFlattenPairs data parentKey separator)

/-- Shapes the dispatcher accepts: `str`, `list`, `dict`. -/
def isSupportedShape : Value → Bool
  | .vstr _ => true
  | .vlist _ => true
  | .vdict _ => true
  | _ => false

/-- Is the value itself a mapping? -/
def isDictValue : Value → Bool
  | .vdict _ => true
  | _ => false

/-- Run a batch of `process_data` calls (data, operation, start, elapsed)
against a processor state, threading the state. -/
def runCalls (jl : String → Option Value) (st : DPState) :
    List (Value × String × ℚ × ℚ) → DPState
  | [] => st
  | (d, op, t, e) :: rest =>
    runCalls jl (process_data jl st d op t e).2 rest

/-- Number of calls in a batch whose `ProcessingResult` is successful. -/
def runCount (jl : String → Option Value) (st : DPState) :
    List (Value × String × ℚ × ℚ) → ℕ
  | [] => 0
  | (d, op, t, e) :: rest =>
    (if (process_data jl st d op t e).1.success then 1 else 0) +
      runCount jl (process_data jl st d op t e).2 rest

theorem foldl_pyDictInsert_nodup :
    ∀ (items acc : List (String × Value)),
      ((acc ++ items).map Prod.fst).Nodup →
      items.foldl pyDictInsert acc = acc ++ items := by
  intro items
  induction items with
  | nil => intro acc _; simp
  | cons kv rest ih =>
    intro acc h
    have hk : ∀ p ∈ acc, p.1 ≠ kv.1 := by
      intro p hp hpe
      have h1 : kv.1 ∈ (acc.map Prod.fst) := hpe ▸ List.mem_map_of_mem Prod.fst hp
      have h2 : kv.1 ∈ ((kv :: rest).map Prod.fst) := by simp
      have hd := (List.nodup_append.mp (by simpa using h)).2.2
      exact hd h1 h2
    have hins : pyDictInsert acc kv = acc ++ [kv] := by
      unfold pyDictInsert
      rw [if_neg]
      simp only [List.any_eq_true, beq_iff_eq, not_exists]
      intro p hp
      exact hk p hp.1 hp.2
    rw [List.foldl_cons, hins, ih (acc ++ [kv]) (by simpa using h)]
    simp

/-- `dict(items)` is the identity on a pair list whose keys are distinct. -/
theorem pyDict_eq_self (items : List (String × Value))
    (h : (items.map Prod.fst).Nodup) : pyDict items = items := by
  have := foldl_pyDictInsert_nodup items [] (by simpa using h)
  simpa [pyDict] using this

theorem cmpErrMsg_ne_empty (x y : Value) : cmpErrMsg x y ≠ "" := by
  intro h
  have hlen : (cmpErrMsg x y).length = 0 := by rw [h]; rfl
  rw [cmpErrMsg] at hlen
  simp only [String.length_append] at hlen
  have h1 : 0 < ("'<' not supported between instances of '" : String).length := by decide
  omega

theorem insertSorted_error {x : Value} {ys : List Value} {e : String}
    (h : insertSorted x ys = .error e) : ∃ a b, e = cmpErrMsg a b := by
  induction ys with
  | nil => simp [insertSorted] at h
  | cons y ys ih =>
    rw [insertSorted] at h
    split at h
    · simp only [Except.error.injEq] at h
      exact ⟨x, y, h.symm⟩
    · simp at h
    · cases hrec : insertSorted x ys with
      | ok v => rw [hrec] at h; simp [Except.map] at h
      | error e2 =>
        rw [hrec] at h
        simp only [Except.map, Except.error.injEq] at h
        subst h
        exact ih hrec

theorem pySorted_error {xs : List Value} {e : String}
    (h : pySorted xs = .error e) : ∃ a b, e = cmpErrMsg a b := by
  induction xs with
  | nil => simp [pySorted] at h
  | cons x xs ih =>
    rw [pySorted] at h
    cases hrec : pySorted xs with
    | ok ys => rw [hrec] at h; exact insertSorted_error h
    | error e2 =>
      rw [hrec] at h
      simp only [Except.error.injEq] at h
      subst h
      exact ih hrec

theorem pyUnique_error {xs : List Value} {e : String}
    (h : pyUnique xs = .error e) : e ≠ "" := by
  rw [pyUnique] at h
  split at h
  · simp only [Except.error.injEq] at h
    subst h
    intro hcon
    have hlen := congrArg String.length hcon
    simp only [String.length_append] at hlen
    have h1 : 0 < ("unhashable type: '" : String).length := by decide
    have h2 : ("" : String).length = 0 := rfl
    omega
  · simp at h

theorem process_list_data_error {xs : List Value} {op : String} {e : String}
    (h : process_list_data xs op = .error e) : e ≠ "" := by
  rw [process_list_data] at h
  split_ifs at h
  · cases hs : pySorted xs with
    | ok v => rw [hs] at h; simp [Except.map] at h
    | error e2 =>
      rw [hs] at h
      simp only [Except.map, Except.error.injEq] at h
      subst h
      obtain ⟨a, b, rfl⟩ := pySorted_error hs
      exact cmpErrMsg_ne_empty a b
  · cases hu : pyUnique xs with
    | ok v => rw [hu] at h; simp [Except.map] at h
    | error e2 =>
      rw [hu] at h
      simp only [Except.map, Except.error.injEq] at h
      subst h
      exact pyUnique_error hu

theorem dispatchTransform_error {jl : String → Option Value} {data : Value}
    {op : String} {e : String}
    (h : dispatchTransform jl data op = .error e) : e ≠ "" := by
  cases data with
  | vstr s => simp [dispatchTransform] at h
  | vlist xs => exact process_list_data_error h
  | vdict kvs => simp [dispatchTransform] at h
  | vint n =>
    simp only [dispatchTransform, Except.error.injEq] at h
    subst h
    intro hcon
    have hlen := congrArg String.length hcon
    simp only [String.length_append] at hlen
    have h1 : 0 < ("Unsupported data type: <class '" : String).length := by decide
    have h2 : ("" : String).length = 0 := rfl
    omega
  | vbool b =>
    simp only [dispatchTransform, Except.error.injEq] at h
    subst h
    intro hcon
    have hlen := congrArg String.length hcon
    simp only [String.length_append] at hlen
    have h1 : 0 < ("Unsupported data type: <class '" : String).length := by decide
    have h2 : ("" : String).length = 0 := rfl
    omega
  | vnone =>
    simp only [dispatchTransform, Except.error.injEq] at h
    subst h
    intro hcon
    have hlen := congrArg String.length hcon
    simp only [String.length_append] at hlen
    have h1 : 0 < ("Unsupported data type: <class '" : String).length := by decide
    have h2 : ("" : String).length = 0 := rfl
    omega

theorem pySorted_fail_of_incomparable :
    ∀ xs : List Value, 2 ≤ xs.length →
      List.Pairwise (fun a b => pyCompare a b = none) xs →
      ∃ a b, pySorted xs = .error (cmpErrMsg a b) := by
  intro xs
  induction xs with
  | nil => intro h; simp at h
  | cons x xs ih =>
    intro hlen hpw
    match xs, hpw with
    | [], _ => simp at hlen
    | [y], .cons hxy _ =>
      refine ⟨x, y, ?_⟩
      have hc : pyCompare x y = none := hxy y (List.mem_singleton.mpr rfl)
      rw [pySorted, pySorted, pySorted]
      simp [insertSorted, hc]
    | y :: z :: rest, .cons _ hpw2 =>
      have hlen2 : 2 ≤ (y :: z :: rest).length := by simp
      obtain ⟨a, b, hab⟩ := ih hlen2 hpw2
      refine ⟨a, b, ?_⟩
      rw [pySorted, hab]

theorem foldl_success_count (h : List ProcessingResult) :
    ∀ n : ℚ, h.foldl (fun acc r => if r.success then acc + 1 else acc) n
      = n + ((h.filter (fun r => r.success)).length : ℚ) := by
  induction h with
  | nil => intro n; simp
  | cons r rest ih =>
    intro n
    by_cases hs : r.success
    · simp [hs, ih, List.filter_cons]
      ring
    · simp [hs, ih, List.filter_cons]

theorem foldl_time_sum (h : List ProcessingResult) :
    ∀ q : ℚ, h.foldl (fun acc r => acc + r.processing_time) q
      = q + ((h.map (fun r => r.processing_time)).sum) := by
  induction h with
  | nil => intro q; simp
  | cons r rest ih =>
    intro q
    simp [ih]
    ring


theorem flattenItems_eq_specFlattenPairs :
    ∀ (l : List (String × Value)) (pk sep : String),
      flattenItems l pk sep = specFlattenPairs l pk sep := by
  intro l pk sep
  induction l, pk, sep using flattenItems.induct with
  | case1 pk sep => simp [flattenItems, specFlattenPairs]
  | case2 k v rest pk sep ih1 ih2 =>
    cases v with
    | vdict inner =>
      simp only [dite_eq_ite] at ih1
      simp only [flattenItems, specFlattenPairs, String.isEmpty_iff, ih1, ih2]
    | vstr s => simp only [flattenItems, specFlattenPairs, String.isEmpty_iff, ih2]
    | vint n => simp only [flattenItems, specFlattenPairs, String.isEmpty_iff, ih2]
    | vbool b => simp only [flattenItems, specFlattenPairs, String.isEmpty_iff, ih2]
    | vnone => simp only [flattenItems, specFlattenPairs, String.isEmpty_iff, ih2]
    | vlist xs => simp only [flattenItems, specFlattenPairs, String.isEmpty_iff, ih2]

theorem flattenItems_flat (d : List (String × Value))
    (hflat : ∀ p ∈ d, isDictValue p.2 = false) :
    ∀ sep : String, flattenItems d "" sep = d := by
  induction d with
  | nil => intro sep; rw [flattenItems]
  | cons p rest ih =>
    intro sep
    obtain ⟨k, v⟩ := p
    have hv := hflat (k, v) (List.mem_cons_self _ _)
    have hrest : ∀ q ∈ rest, isDictValue q.2 = false := fun q hq =>
      hflat q (List.mem_cons_of_mem _ hq)
    cases v with
    | vdict inner => simp [isDictValue] at hv
    | vstr s => simp [flattenItems, ih hrest]
    | vint n => simp [flattenItems, ih hrest]
    | vbool b => simp [flattenItems, ih hrest]
    | vnone => simp [flattenItems, ih hrest]
    | vlist xs => simp [flattenItems, ih hrest]

theorem flattenItems_drop_empty_dict :
    ∀ (d1 d2 : List (String × Value)) (k pk sep : String),
      flattenItems (d1 ++ (k, Value.vdict []) :: d2) pk sep
        = flattenItems (d1 ++ d2) pk sep := by
  intro d1
  induction d1 with
  | nil =>
    intro d2 k pk sep
    simp only [List.nil_append]
    rw [flattenItems, flattenItems]
    simp
  | cons p rest ih =>
    intro d2 k pk sep
    obtain ⟨k1, v1⟩ := p
    simp only [List.cons_append]
    cases v1 with
    | vdict inner => simp only [flattenItems, ih]
    | vstr s => simp only [flattenItems, ih]
    | vint n => simp only [flattenItems, ih]
    | vbool b => simp only [flattenItems, ih]
    | vnone => simp only [flattenItems, ih]
    | vlist xs => simp only [flattenItems, ih]

theorem listGetAppendLt {α : Type} (l l2 : List α) (n : ℕ) (h : n < l.length) :
    (l ++ l2).get? n = l.get? n := by
  induction l generalizing n with
  | nil => simp at h
  | cons x xs ih =>
    cases n with
    | zero => rfl
    | succ m =>
      simp only [List.cons_append, List.get?_cons_succ]
      exact ih m (by simpa using h)

theorem listSetAppendLen {α : Type} (l : List α) (v x : α) :
    (l ++ [v]).set l.length x = l ++ [x] := by
  induction l with
  | nil => rfl
  | cons y ys ih => simp [List.set_cons_succ, ih]

theorem process_data_of_ok {jl : String → Option Value} {data : Value}
    {op : String} {rd : Value} (st : DPState) (start elapsed : ℚ)
    (h : dispatchTransform jl data op = .ok rd) :
    process_data jl st data op start elapsed
      = ({ success := true
           data := rd
           metadata := [("operation", .s op),
                        ("input_type", .s (pyTypeName data)),
                        ("output_type", .s (pyTypeName rd)),
                        ("processing_time", .q elapsed)]
           timestamp := start
           processing_time := elapsed },
         { st with processing_history := st.processing_history ++
             [{ success := true
                data := rd
                metadata := [("operation", .s op),
                             ("input_type", .s (pyTypeName data)),
                             ("output_type", .s (pyTypeName rd)),
                             ("processing_time", .q elapsed)]
                timestamp := start
                processing_time := elapsed }] }) := by
  rw [process_data, h]

theorem process_data_of_error {jl : String → Option Value} {data : Value}
    {op : String} {e : String} (st : DPState) (start elapsed : ℚ)
    (h : dispatchTransform jl data op = .error e) :
    process_data jl st data op start elapsed
      = ({ success := false
           data := .vnone
           metadata := [("error", .s e)]
           timestamp := start
           processing_time := elapsed }, st) := by
  rw [process_data, h]

/-- C8: for every text input on which structured decoding fails
(`jl s = none`), the text `parse` operation yields a successful result
whose data equals the fallback record
`{"raw": <original text>, "parsed": false}`, not a failed result. -/
theorem c8_parse_fallback (jl : String → Option Value) (st : DPState)
    (s : String) (start elapsed : ℚ) (h : jl s = none) :
    (process_data jl st (.vstr s) "parse" start elapsed).1.success = true ∧
    (process_data jl st (.vstr s) "parse" start elapsed).1.data
      = .vdict [("raw", .vstr s), ("parsed", .vbool false)] := by
  have hd : dispatchTransform jl (.vstr s) "parse"
      = .ok (.vdict [("raw", .vstr s), ("parsed", .vbool false)]) := by
    simp [dispatchTransform, process_string_data, h]
  rw [process_data_of_ok st start elapsed hd]
  exact ⟨rfl, rfl⟩

/-- Witness for C8 at the spec's own example `"\x7bnot valid json"` with a
decoder that rejects it. -/
theorem c8_parse_fallback_witness :
    ((fun (_ : String) => (none : Option Value)) "\x7bnot valid json" = none) ∧
    (process_data (fun _ => none) DataProcessor_init (.vstr "\x7bnot valid json")
        "parse" 0 0).1.success = true ∧
    (process_data (fun _ => none) DataProcessor_init (.vstr "\x7bnot valid json")
        "parse" 0 0).1.data
      = .vdict [("raw", .vstr "\x7bnot valid json"), ("parsed", .vbool false)] :=
  ⟨rfl, c8_parse_fallback (fun _ => none) DataProcessor_init "\x7bnot valid json" 0 0 rfl⟩

/-- C10: an entry whose value is an empty mapping contributes no pairs to
the flattened output and no entry for its own key; in particular
`flatten({"a": {}}) = {}`. -/
theorem c10_flatten_drops_empty_dict :
    flatten_dict [("a", Value.vdict [])] "" "_" = [] ∧
    ∀ (d1 d2 : List (String × Value)) (k pk sep : String),
      flatten_dict (d1 ++ (k, Value.vdict []) :: d2) pk sep
        = flatten_dict (d1 ++ d2) pk sep := by
  constructor
  · simp [flatten_dict, flattenItems, pyDict]
  · intro d1 d2 k pk sep
    rw [flatten_dict, flatten_dict, flattenItems_drop_empty_dict]

/-- C4: the flattener agrees with the spec's recursive path law (newKey =
k when parentKey is empty, else parentKey + separator + k, recursing into
mapping values, collisions last-write-wins); the worked example
`flatten({"a": {"b": 1, "c": 2}}) = {"a_b": 1, "a_c": 2}` holds; and on a
mapping with no nested mapping values (and distinct keys, as in any real
dict) flatten returns the input unchanged. -/
theorem c4_flatten_path_law :
    (∀ (d : List (String × Value)) (pk sep : String),
        flatten_dict d pk sep = specFlatten d pk sep) ∧
    flatten_dict [("a", Value.vdict [("b", Value.vint 1), ("c", Value.vint 2)])] "" "_"
      = [("a_b", Value.vint 1), ("a_c", Value.vint 2)] ∧
    ∀ d : List (String × Value), (∀ p ∈ d, isDictValue p.2 = false) →
      (d.map Prod.fst).Nodup → flatten_dict d "" "_" = d := by
  refine ⟨?_, ?_, ?_⟩
  · intro d pk sep
    rw [flatten_dict, specFlatten, flattenItems_eq_specFlattenPairs]
  · simp [flatten_dict, flattenItems, pyDict, pyDictInsert]
  · intro d h1 h2
    rw [flatten_dict, flattenItems_flat d h1, pyDict_eq_self d h2]

/-- Witness for C4's flat-input clause at `{"x": 1}` (the spec's
idempotence example). -/
theorem c4_flatten_path_law_witness :
    (∀ p ∈ ([("x", Value.vint 1)] : List (String × Value)), isDictValue p.2 = false) ∧
    (([("x", Value.vint 1)] : List (String × Value)).map Prod.fst).Nodup ∧
    flatten_dict [("x", Value.vint 1)] "" "_" = [("x", Value.vint 1)] := by
  refine ⟨?_, ?_, ?_⟩
  · intro p hp
    rw [List.mem_singleton] at hp
    rw [hp]
    rfl
  · simp
  · exact c4_flatten_path_law.2.2 [("x", Value.vint 1)]
      (by intro p hp; rw [List.mem_singleton] at hp; rw [hp]; rfl) (by simp)

/-- C3: for each supported input shape, an operation name outside that
shape's enumerated set is a pass-through: the call succeeds and the data
equals the input unchanged. -/
theorem c3_unknown_op_passthrough :
    (∀ (jl : String → Option Value) (st : DPState) (s : String) (op : String)
        (start elapsed : ℚ),
        op ∉ (["transform", "parse", "clean"] : List String) →
        (process_data jl st (.vstr s) op start elapsed).1.success = true ∧
        (process_data jl st (.vstr s) op start elapsed).1.data = .vstr s) ∧
    (∀ (jl : String → Option Value) (st : DPState) (xs : List Value) (op : String)
        (start elapsed : ℚ),
        op ∉ (["transform", "filter", "sort", "unique"] : List String) →
        (process_data jl st (.vlist xs) op start elapsed).1.success = true ∧
        (process_data jl st (.vlist xs) op start elapsed).1.data = .vlist xs) ∧
    (∀ (jl : String → Option Value) (st : DPState) (kvs : List (String × Value))
        (op : String) (start elapsed : ℚ),
        op ∉ (["transform", "filter", "flatten"] : List String) →
        (process_data jl st (.vdict kvs) op start elapsed).1.success = true ∧
        (process_data jl st (.vdict kvs) op start elapsed).1.data = .vdict kvs) := by
  refine ⟨?_, ?_, ?_⟩
  · intro jl st s op start elapsed hop
    simp only [List.mem_cons, List.not_mem_nil, or_false, not_or] at hop
    have hd : dispatchTransform jl (.vstr s) op = .ok (.vstr s) := by
      simp [dispatchTransform, process_string_data, hop.1, hop.2.1, hop.2.2]
    rw [process_data_of_ok st start elapsed hd]
    exact ⟨rfl, rfl⟩
  · intro jl st xs op start elapsed hop
    simp only [List.mem_cons, List.not_mem_nil, or_false, not_or] at hop
    have hd : dispatchTransform jl (.vlist xs) op = .ok (.vlist xs) := by
      simp [dispatchTransform, process_list_data, hop.1, hop.2.1, hop.2.2.1, hop.2.2.2]
    rw [process_data_of_ok st start elapsed hd]
    exact ⟨rfl, rfl⟩
  · intro jl st kvs op start elapsed hop
    simp only [List.mem_cons, List.not_mem_nil, or_false, not_or] at hop
    have hd : dispatchTransform jl (.vdict kvs) op = .ok (.vdict kvs) := by
      simp [dispatchTransform, process_dict_data, hop.1, hop.2.1, hop.2.2]
    rw [process_data_of_ok st start elapsed hd]
    exact ⟨rfl, rfl⟩

/-- Witness for C3 at the unsupported operation name `"reverse"` on all
three shapes. -/
theorem c3_unknown_op_passthrough_witness :
    ("reverse" ∉ (["transform", "parse", "clean"] : List String)) ∧
    ("reverse" ∉ (["transform", "filter", "sort", "unique"] : List String)) ∧
    ("reverse" ∉ (["transform", "filter", "flatten"] : List String)) ∧
    ((process_data (fun _ => none) DataProcessor_init (.vstr "hi") "reverse" 0 0).1.success = true ∧
     (process_data (fun _ => none) DataProcessor_init (.vstr "hi") "reverse" 0 0).1.data = .vstr "hi") ∧
    ((process_data (fun _ => none) DataProcessor_init (.vlist [.vint 3]) "reverse" 0 0).1.success = true ∧
     (process_data (fun _ => none) DataProcessor_init (.vlist [.vint 3]) "reverse" 0 0).1.data = .vlist [.vint 3]) ∧
    ((process_data (fun _ => none) DataProcessor_init (.vdict [("k", .vint 1)]) "reverse" 0 0).1.success = true ∧
     (process_data (fun _ => none) DataProcessor_init (.vdict [("k", .vint 1)]) "reverse" 0 0).1.data = .vdict [("k", .vint 1)]) := by
  refine ⟨by decide, by decide, by decide, ?_, ?_, ?_⟩
  · exact c3_unknown_op_passthrough.1 (fun _ => none) DataProcessor_init "hi" "reverse" 0 0 (by decide)
  · exact c3_unknown_op_passthrough.2.1 (fun _ => none) DataProcessor_init [.vint 3] "reverse" 0 0 (by decide)
  · exact c3_unknown_op_passthrough.2.2 (fun _ => none) DataProcessor_init [("k", .vint 1)] "reverse" 0 0 (by decide)

/-- C5: `get_statistics` on an empty history (also right after
`clear_history`) is `{total_operations: 0, success_rate: 0.0}`; on a
non-empty history it reports the history length, the count of successful
records, their exact quotient, the summed processing time, and its
average. -/
theorem c5_statistics :
    (get_statistics [] = [("total_operations", 0), ("success_rate", 0)]) ∧
    (∀ st : DPState, get_statistics (clear_history st).processing_history
        = [("total_operations", 0), ("success_rate", 0)]) ∧
    (∀ hist : List ProcessingResult, hist ≠ [] →
      get_statistics hist =
        [("total_operations", (hist.length : ℚ)),
         ("successful_operations", ((hist.filter (fun r => r.success)).length : ℚ)),
         ("success_rate",
           ((hist.filter (fun r => r.success)).length : ℚ) / (hist.length : ℚ)),
         ("total_processing_time", (hist.map (fun r => r.processing_time)).sum),
         ("average_processing_time",
           (hist.map (fun r => r.processing_time)).sum / (hist.length : ℚ))]) := by
  refine ⟨rfl, fun st => rfl, ?_⟩
  intro hist hne
  cases hist with
  | nil => exact absurd rfl hne
  | cons r rest =>
    rw [get_statistics]
    rw [foldl_success_count, foldl_time_sum]
    simp

/-- Witness for C5's non-empty clause at a one-element history. -/
theorem c5_statistics_witness :
    (([⟨true, .vnone, [], 0, 2⟩] : List ProcessingResult) ≠ []) ∧
    get_statistics [⟨true, .vnone, [], 0, 2⟩]
      = [("total_operations", 1), ("successful_operations", 1),
         ("success_rate", 1), ("total_processing_time", 2),
         ("average_processing_time", 2)] := by
  constructor
  · simp
  · rw [c5_statistics.2.2 [⟨true, .vnone, [], 0, 2⟩] (by simp)]
    norm_num

/-- C6: faults are captured, not propagated: an input whose shape is none
of text/sequence/mapping, and a `sort` on a sequence of (at least two)
mutually unorderable elements, both return a failed `ProcessingResult`
carrying a non-empty `"error"` metadata entry. -/
theorem c6_failures_as_results :
    (∀ (jl : String → Option Value) (st : DPState) (data : Value) (op : String)
        (start elapsed : ℚ),
        isSupportedShape data = false →
        (process_data jl st data op start elapsed).1.success = false ∧
        ∃ m, List.lookup "error" (process_data jl st data op start elapsed).1.metadata
            = some (.s m) ∧ m ≠ "") ∧
    (∀ (jl : String → Option Value) (st : DPState) (xs : List Value)
        (start elapsed : ℚ),
        2 ≤ xs.length →
        List.Pairwise (fun a b => pyCompare a b = none) xs →
        (process_data jl st (.vlist xs) "sort" start elapsed).1.success = false ∧
        ∃ m, List.lookup "error"
              (process_data jl st (.vlist xs) "sort" start elapsed).1.metadata
            = some (.s m) ∧ m ≠ "") := by
  constructor
  · intro jl st data op start elapsed hshape
    cases data with
    | vstr s => simp [isSupportedShape] at hshape
    | vlist xs => simp [isSupportedShape] at hshape
    | vdict kvs => simp [isSupportedShape] at hshape
    | vint n =>
      have hd : dispatchTransform jl (.vint n) op
          = .error ("Unsupported data type: <class '" ++ pyTypeName (.vint n) ++ "'>") := rfl
      rw [process_data_of_error st start elapsed hd]
      exact ⟨rfl, _, by simp [List.lookup], dispatchTransform_error hd⟩
    | vbool b =>
      have hd : dispatchTransform jl (.vbool b) op
          = .error ("Unsupported data type: <class '" ++ pyTypeName (.vbool b) ++ "'>") := rfl
      rw [process_data_of_error st start elapsed hd]
      exact ⟨rfl, _, by simp [List.lookup], dispatchTransform_error hd⟩
    | vnone =>
      have hd : dispatchTransform jl .vnone op
          = .error ("Unsupported data type: <class '" ++ pyTypeName .vnone ++ "'>") := rfl
      rw [process_data_of_error st start elapsed hd]
      exact ⟨rfl, _, by simp [List.lookup], dispatchTransform_error hd⟩
  · intro jl st xs start elapsed hlen hpw
    obtain ⟨a, b, hab⟩ := pySorted_fail_of_incomparable xs hlen hpw
    have hd : dispatchTransform jl (.vlist xs) "sort" = .error (cmpErrMsg a b) := by
      simp [dispatchTransform, process_list_data, hab, Except.map]
    rw [process_data_of_error st start elapsed hd]
    exact ⟨rfl, cmpErrMsg a b, by simp [List.lookup], cmpErrMsg_ne_empty a b⟩

/-- Witness for C6: a `None` input (unsupported shape) and a `sort` over
`[1, "a"]` (int and str are unorderable). -/
theorem c6_failures_as_results_witness :
    (isSupportedShape .vnone = false) ∧
    ((process_data (fun _ => none) DataProcessor_init .vnone "transform" 0 0).1.success = false ∧
     ∃ m, List.lookup "error"
           (process_data (fun _ => none) DataProcessor_init .vnone "transform" 0 0).1.metadata
         = some (.s m) ∧ m ≠ "") ∧
    (2 ≤ ([.vint 1, .vstr "a"] : List Value).length) ∧
    List.Pairwise (fun a b => pyCompare a b = none) [.vint 1, .vstr "a"] ∧
    ((process_data (fun _ => none) DataProcessor_init
        (.vlist [.vint 1, .vstr "a"]) "sort" 0 0).1.success = false ∧
     ∃ m, List.lookup "error"
           (process_data (fun _ => none) DataProcessor_init
             (.vlist [.vint 1, .vstr "a"]) "sort" 0 0).1.metadata
         = some (.s m) ∧ m ≠ "") := by
  have hpw : List.Pairwise (fun a b => pyCompare a b = none) [.vint 1, .vstr "a"] := by
    refine List.Pairwise.cons ?_ (List.pairwise_singleton _ _)
    intro b hb
    rw [List.mem_singleton] at hb
    subst hb
    simp [pyCompare]
  refine ⟨rfl, ?_, by simp, hpw, ?_⟩
  · exact c6_failures_as_results.1 (fun _ => none) DataProcessor_init .vnone "transform" 0 0 rfl
  · exact c6_failures_as_results.2 (fun _ => none) DataProcessor_init [.vint 1, .vstr "a"] 0 0 (by simp) hpw

/-- C9: `get_processing_history` hands out a copy: mutating the returned
list object (overwriting its contents with any function of them, which
covers appending, removing and reordering) leaves the history cell
untouched, so `get_statistics` over the history is unchanged. -/
theorem c9_history_defensive_copy (h : ListHeap) (histRef : ℕ)
    (f : List ProcessingResult → List ProcessingResult)
    (hwf : histRef < h.cells.length) :
    get_statistics (heapRead
        (heapWrite (get_processing_history h histRef).2
          (get_processing_history h histRef).1
          (f (heapRead (get_processing_history h histRef).2
                (get_processing_history h histRef).1)))
        histRef)
      = get_statistics (heapRead h histRef) := by
  simp only [get_processing_history, heapAlloc, heapWrite, heapRead]
  rw [listSetAppendLen]
  rw [listGetAppendLt _ _ _ hwf]

/-- Witness for C9: a one-call history, with the caller clearing the list
returned to it. -/
theorem c9_history_defensive_copy_witness :
    (0 < (ListHeap.mk [[⟨true, .vnone, [], 0, 2⟩]]).cells.length) ∧
    get_statistics (heapRead
        (heapWrite (get_processing_history (ListHeap.mk [[⟨true, .vnone, [], 0, 2⟩]]) 0).2
          (get_processing_history (ListHeap.mk [[⟨true, .vnone, [], 0, 2⟩]]) 0).1
          ((fun _ => []) (heapRead (get_processing_history (ListHeap.mk [[⟨true, .vnone, [], 0, 2⟩]]) 0).2
                (get_processing_history (ListHeap.mk [[⟨true, .vnone, [], 0, 2⟩]]) 0).1)))
        0)
      = get_statistics (heapRead (ListHeap.mk [[⟨true, .vnone, [], 0, 2⟩]]) 0) :=
  ⟨by simp, c9_history_defensive_copy (ListHeap.mk [[⟨true, .vnone, [], 0, 2⟩]]) 0
      (fun _ => []) (by simp)⟩

theorem lookup_total_operations (hist : List ProcessingResult) :
    List.lookup "total_operations" (get_statistics hist)
      = some ((hist.length : ℚ)) := by
  cases hist with
  | nil => rfl
  | cons r rest => rw [get_statistics]; rfl

theorem runCalls_history_length (jl : String → Option Value) :
    ∀ (calls : List (Value × String × ℚ × ℚ)) (st : DPState),
      (runCalls jl st calls).processing_history.length
        = st.processing_history.length + runCount jl st calls := by
  intro calls
  induction calls with
  | nil => intro st; simp [runCalls, runCount]
  | cons c rest ih =>
    intro st
    obtain ⟨d, op, start, elapsed⟩ := c
    rw [runCalls, runCount, ih]
    cases hd : dispatchTransform jl d op with
    | ok rd =>
      rw [process_data_of_ok st start elapsed hd]
      simp
      omega
    | error e =>
      rw [process_data_of_error st start elapsed hd]
      simp

/-- C1 as stated is false on the code: the `except` branch of
`process_data` returns its failed result without appending it to the
history.  One failing call (`None` input) leaves the history empty and
`total_operations` at 0, not 1. -/
theorem c1_counterexample :
    (process_data (fun _ => none) DataProcessor_init .vnone "transform" 0 0).1.success = false ∧
    (process_data (fun _ => none) DataProcessor_init .vnone "transform" 0 0).2.processing_history.length = 0 ∧
    List.lookup "total_operations"
        (get_statistics
          (process_data (fun _ => none) DataProcessor_init .vnone "transform" 0 0).2.processing_history)
      = some 0 ∧
    (0 : ℚ) ≠ 1 := by
  refine ⟨rfl, rfl, ?_, by norm_num⟩
  rw [lookup_total_operations]
  rfl

/-- C1 amended: a call to `process` appends exactly one record to the
history iff it succeeds (a failed call appends nothing); after any batch
of calls on a fresh processor, `total_operations` equals the number of
successful calls in the batch. -/
theorem c1_amended_append_iff_success :
    (∀ (jl : String → Option Value) (st : DPState) (data : Value) (op : String)
        (start elapsed : ℚ),
        (process_data jl st data op start elapsed).2.processing_history
          = st.processing_history ++
            (if (process_data jl st data op start elapsed).1.success
             then [(process_data jl st data op start elapsed).1] else [])) ∧
    (∀ (jl : String → Option Value) (calls : List (Value × String × ℚ × ℚ)),
        List.lookup "total_operations"
            (get_statistics (runCalls jl DataProcessor_init calls).processing_history)
          = some ((runCount jl DataProcessor_init calls : ℚ))) := by
  constructor
  · intro jl st data op start elapsed
    cases hd : dispatchTransform jl data op with
    | ok rd => rw [process_data_of_ok st start elapsed hd]; rfl
    | error e => rw [process_data_of_error st start elapsed hd]; simp
  · intro jl calls
    rw [lookup_total_operations, runCalls_history_length jl calls DataProcessor_init]
    simp [DataProcessor_init]

/-- C2 as stated is false on the code: a successful result can carry null
data.  `json.loads("null")` decodes to `None`, so `parse` on the text
`"null"` returns `success == true` with `data == None`, refuting "every
successful result has non-null data". -/
theorem c2_counterexample :
    (fun s => if s = "null" then some Value.vnone else none : String → Option Value) "null"
      = some Value.vnone ∧
    (process_data (fun s => if s = "null" then some Value.vnone else none)
        DataProcessor_init (.vstr "null") "parse" 0 0).1.success = true ∧
    (process_data (fun s => if s = "null" then some Value.vnone else none)
        DataProcessor_init (.vstr "null") "parse" 0 0).1.data = .vnone := by
  refine ⟨rfl, ?_, ?_⟩ <;> rfl

/-- C2 amended: `success == false` holds iff `data` is null AND `metadata`
carries a non-empty `"error"` entry; every failed result carries a
non-empty error string, but a successful result may also have null data
(decoded JSON `null`), merely without an `"error"` key. -/
theorem c2_amended_failure_invariant (jl : String → Option Value) (st : DPState)
    (data : Value) (op : String) (start elapsed : ℚ) :
    (process_data jl st data op start elapsed).1.success = false ↔
      ((process_data jl st data op start elapsed).1.data = .vnone ∧
       ∃ m, List.lookup "error" (process_data jl st data op start elapsed).1.metadata
          = some (.s m) ∧ m ≠ "") := by
  cases hd : dispatchTransform jl data op with
  | ok rd =>
    rw [process_data_of_ok st start elapsed hd]
    simp [List.lookup]
  | error e =>
    rw [process_data_of_error st start elapsed hd]
    simp [List.lookup]
    exact dispatchTransform_error hd

/-- C7 as stated is false on the code: when two distinct keys collide
after uppercasing, the dict comprehension keeps only the last value, so
entries are lost.  On `{"a": 1, "A": 2}`, `transform` returns the
one-entry mapping `{"A": 2}` from a two-entry input. -/
theorem c7_counterexample :
    (process_data (fun _ => none) DataProcessor_init
        (.vdict [("a", .vint 1), ("A", .vint 2)]) "transform" 0 0).1.data
      = .vdict [("A", .vint 2)] ∧
    ([("A", Value.vint 2)] : List (String × Value)).length
      ≠ ([("a", Value.vint 1), ("A", Value.vint 2)] : List (String × Value)).length := by
  constructor
  · rfl
  · simp

/-- C7 amended: the mapping `transform` uppercases every key and leaves
values unchanged, with Python-dict collision semantics (last write wins);
when the uppercased keys are pairwise distinct — in particular whenever no
two keys differ only by case — no entry is lost. -/
theorem c7_amended_uppercase_keys (jl : String → Option Value) (st : DPState)
    (kvs : List (String × Value)) (start elapsed : ℚ) :
    (process_data jl st (.vdict kvs) "transform" start elapsed).1.success = true ∧
    (process_data jl st (.vdict kvs) "transform" start elapsed).1.data
      = .vdict (pyDict (kvs.map fun kv => (pyUpper kv.1, kv.2))) ∧
    ((kvs.map fun kv => pyUpper kv.1).Nodup →
      (process_data jl st (.vdict kvs) "transform" start elapsed).1.data
        = .vdict (kvs.map fun kv => (pyUpper kv.1, kv.2))) := by
  have hd : dispatchTransform jl (.vdict kvs) "transform"
      = .ok (.vdict (pyDict (kvs.map fun kv => (pyUpper kv.1, kv.2)))) := rfl
  rw [process_data_of_ok st start elapsed hd]
  refine ⟨rfl, rfl, ?_⟩
  intro hnd
  have : ((kvs.map fun kv => (pyUpper kv.1, kv.2)).map Prod.fst).Nodup := by
    rw [List.map_map]
    exact hnd
  rw [pyDict_eq_self _ this]

/-- Witness for C7's no-collision clause at the spec's example
`{"name": "John"}`, whose transform is `{"NAME": "John"}`. -/
theorem c7_amended_uppercase_keys_witness :
    (([("name", Value.vstr "John")].map fun kv => pyUpper kv.1) : List String).Nodup ∧
    (process_data (fun _ => none) DataProcessor_init
        (.vdict [("name", .vstr "John")]) "transform" 0 0).1.data
      = .vdict [("NAME", .vstr "John")] := by
  constructor
  · simp
  · have := (c7_amended_uppercase_keys (fun _ => none) DataProcessor_init
      [("name", .vstr "John")] 0 0).2.2 (by simp)
    rw [this]
    rfl
